import Mathlib

/-!
Verification development for the subject_bot repository: a Telegram survey
bot.  The core under verification is the question handler
(`src/handler.js`, present in several revisions), the AI summary service
(`src/ai/summary.js`) and the message router (`src/index.js`).

The JavaScript code is shallowly embedded: the mutable `Map` of sessions
becomes an association list, `Date.now()` and the outcome of the external
summarization HTTP call become explicit parameters, and every outbound
transport call (sendMessage, sendTyping, sendDocument, file writes and
deletes) is recorded in an explicit effect trace.  Question texts and
translated UI strings live in `src/config/translations.js`, which the
specification declares an external read-only configuration collaborator;
they are passed in through a `Config` record of string-valued functions.
-/

set_option maxHeartbeats 1000000
set_option linter.unusedVariables false

namespace SubjectBot

/-! ## JavaScript string primitives -/

/-- Characters removed by JavaScript `String.prototype.trim` and matched by
the regex class `\s` (restricted to the code points this code base can
meet). -/
def isJsWs (c : Char) : Bool :=
  c = ' ' || c = '\t' || c = '\n' || c = '\r' || c.toNat = 11 || c.toNat = 12 ||
  c.toNat = 160

/-- `trim()` on the character list: drop whitespace from both ends. -/
def jsTrimList (cs : List Char) : List Char :=
  ((cs.dropWhile isJsWs).reverse.dropWhile isJsWs).reverse

/-- JavaScript `text.trim()`. -/
def jsTrim (s : String) : String := String.mk (jsTrimList s.data)

/-- JavaScript `text.length`.  (JS counts UTF-16 code units; for every
string manipulated by this program the counts agree with code points, and
we model length as the number of characters.) -/
def jsLength (s : String) : Nat := s.data.length

/-- JavaScript `text.startsWith('/')` as used by the command filters. -/
def startsWithSlash (s : String) : Bool :=
  match s.data with
  | '/' :: _ => true
  | _ => false

/-- `content.split('\n')`: worker on the character list. -/
def splitNlAux : List Char → List Char → List String
  | [], acc => [String.mk acc.reverse]
  | '\n' :: rest, acc => String.mk acc.reverse :: splitNlAux rest []
  | c :: rest, acc => splitNlAux rest (c :: acc)

/-- JavaScript `content.split('\n')`. -/
def jsSplitNl (s : String) : List String := splitNlAux s.data []

/-- JavaScript `lines.join('\n')`. -/
def jsJoinNl : List String → String
  | [] => ""
  | [x] => x
  | x :: xs => x ++ "\n" ++ jsJoinNl xs

/-- JavaScript truthiness of a possibly-null string (`null` and `''` are
falsy). -/
def truthyStr : Option String → Bool
  | none => false
  | some s => s ≠ ""

/-- JavaScript `a || b` on a possibly-null string (used by
`session.summary || fallback`). -/
def jsOrStr (o : Option String) (d : String) : String :=
  match o with
  | some t => if t = "" then d else t
  | none => d

/-- Simple case folding as performed by a case-insensitive (`/i`)
JavaScript regex: ASCII letters and the Cyrillic letters appearing in the
patterns of this program fold upper to lower case. -/
def foldCase (c : Char) : Char :=
  if 'А' ≤ c && c ≤ 'Я' then Char.ofNat (c.toNat + 32)
  else if c = 'Ё' then 'ё'
  else c.toLower

/-- Match a literal pattern (given lower-cased) case-insensitively against
the start of the input; return the rest of the input on success. -/
def matchCI : List Char → List Char → Option (List Char)
  | [], cs => some cs
  | _ :: _, [] => none
  | p :: ps, c :: cs => if foldCase c = p then matchCI ps cs else none

/-- Greedy `\s*`. -/
def dropWs (cs : List Char) : List Char := cs.dropWhile isJsWs

/-! ## Data model

A session, as stored in the handler's `Map` (`src/handler.js`).  The
earliest revision's sessions carry no `lang`/`chain` fields; in this
unified model those sessions get the defaults `"ru"` and `1`, which is
also what every accessor of the early revision assumes. -/

structure QA where
  question : String
  answer : String
deriving DecidableEq

structure Session where
  lang : String
  chain : Nat
  currentIndex : Nat
  answers : List QA
  summary : Option String
  lastActivity : Nat
deriving DecidableEq

/-- `this.sessions`: a `Map` from chat id to session, modelled as an
association list in insertion order. -/
abbrev Store := List (Nat × Session)

/-- `this.sessions.get(chatId)`. -/
def storeGet : Store → Nat → Option Session
  | [], _ => none
  | (k, w) :: rest, id => if k = id then some w else storeGet rest id

/-- `this.sessions.set(chatId, v)`: replace in place if the key exists,
otherwise append (JS `Map` keeps insertion order). -/
def storeSet : Store → Nat → Session → Store
  | [], id, v => [(id, v)]
  | (k, w) :: rest, id, v =>
      if k = id then (k, v) :: rest else (k, w) :: storeSet rest id v

/-- `this.sessions.delete(chatId)`. -/
def storeDelete (st : Store) (id : Nat) : Store :=
  st.filter (fun p => p.1 ≠ id)

/-! ## Transcript parser (`parseQAFromText`, upload-variant handler) -/

/-- Test of `/^【?Вопрос\s*\d+】?[:.]?/i` : since everything after `\d+`
is optional, the line must start with an optional `【`, the word
`Вопрос` case-insensitively, optional whitespace and at least one ASCII
digit. -/
def isVoprosMarker (cs : List Char) : Bool :=
  let cs1 := match cs with
    | '【' :: r => r
    | _ => cs
  match matchCI "вопрос".data cs1 with
  | none => false
  | some cs2 =>
      match dropWs cs2 with
      | c :: _ => c.isDigit
      | [] => false

/-- Test of `/^\d+[\.\)]/`. -/
def isNumMarker (cs : List Char) : Bool :=
  let ds := cs.takeWhile Char.isDigit
  decide (ds ≠ []) &&
    match cs.drop ds.length with
    | c :: _ => c = '.' || c = ')'
    | [] => false

/-- A line introduces a new question when either marker regex matches. -/
def isQuestionMarker (s : String) : Bool :=
  isVoprosMarker s.data || isNumMarker s.data

/-- Test of `/^Ответ[:.]?/i`. -/
def isAnswerMarker (s : String) : Bool :=
  (matchCI "ответ".data s.data).isSome

/-- Test of `/^[─═]+$/` (a purely decorative border line). -/
def isDecorative (s : String) : Bool :=
  decide (s.data ≠ []) && s.data.all (fun c => c = '─' || c = '═')

/-- Greedy removal of `/^【?Вопрос\s*\d+】?[:.]?\s*/i`; `none` when the
pattern does not match (JS `replace` then leaves the string alone). -/
def stripVopros (cs : List Char) : Option (List Char) :=
  let cs1 := match cs with
    | '【' :: r => r
    | _ => cs
  match matchCI "вопрос".data cs1 with
  | none => none
  | some cs2 =>
      let cs3 := dropWs cs2
      let ds := cs3.takeWhile Char.isDigit
      if ds = [] then none
      else
        let cs4 := cs3.drop ds.length
        let cs5 := match cs4 with
          | '】' :: r => r
          | _ => cs4
        let cs6 := match cs5 with
          | ':' :: r => r
          | '.' :: r => r
          | _ => cs5
        some (dropWs cs6)

/-- Greedy removal of `/^\d+[\.\)]\s*/`. -/
def stripNum (cs : List Char) : Option (List Char) :=
  let ds := cs.takeWhile Char.isDigit
  if ds = [] then none
  else
    match cs.drop ds.length with
    | '.' :: r => some (dropWs r)
    | ')' :: r => some (dropWs r)
    | _ => none

/-- `trimmed.replace(questionRegex, '').replace(numberRegex, '')`. -/
def stripQuestionLead (s : String) : String :=
  let cs := s.data
  let cs1 := (stripVopros cs).getD cs
  let cs2 := (stripNum cs1).getD cs1
  String.mk cs2

/-- The parser's loop state: accumulated pairs, the current question
(`null` initially), the current answer lines, and the `inAnswer` flag. -/
structure ParseState where
  pairs : List QA
  cq : Option String
  ca : List String
  inAnswer : Bool
deriving DecidableEq

/-- Flush the pending question/answer into the pair list, exactly when
`currentQuestion` is truthy and at least one answer line was collected. -/
def flushPair (st : ParseState) : List QA :=
  if truthyStr st.cq && decide (st.ca ≠ []) then
    st.pairs ++ [⟨st.cq.getD "", jsTrim (jsJoinNl st.ca)⟩]
  else st.pairs

/-- One iteration of the `for (const line of lines)` loop of
`parseQAFromText`. -/
def parseLine (st : ParseState) (line : String) : ParseState :=
  let trimmed := jsTrim line
  if isQuestionMarker trimmed then
    { pairs := flushPair st
      cq := some (stripQuestionLead trimmed)
      ca := []
      inAnswer := false }
  else if isAnswerMarker trimmed then
    { st with inAnswer := true }
  else if st.inAnswer && decide (trimmed ≠ "") then
    { st with ca := st.ca ++ [trimmed] }
  else if truthyStr st.cq && decide (trimmed ≠ "") && !isDecorative trimmed then
    { st with ca := st.ca ++ [trimmed] }
  else st

/-- `parseQAFromText(content)` of the upload-variant handler. -/
def parseQAFromText (content : String) : List QA :=
  flushPair ((jsSplitNl content).foldl parseLine ⟨[], none, [], false⟩)

/-! ## Outbound effects and external collaborators -/

/-- Every outbound call the handler makes to the transport adapter or the
file system, in program order.  `docSend` carries the delivery outcome of
`sendDocument` (which logs failures and never throws back). -/
inductive Effect where
  | msg (chatId : Nat) (text : String)
  | buttons (chatId : Nat) (text : String)
  | typing (chatId : Nat)
  | fileWrite (path : String) (content : String)
  | docSend (chatId : Nat) (path : String) (caption : String) (ok : Bool)
  | fileDelete (path : String)
deriving DecidableEq

/-- Static configuration data: question lists, UI strings and chain texts
from `src/config/translations.js` — an external read-only collaborator per
the specification, so it enters the model as a record of functions of the
language code and chain id. -/
structure Config where
  questions : String → Nat → List String
  questionProgress : String → Nat → Nat → String
  answerTooLong : String → Nat → String
  chooseAction : String → String
  introMessage : String → Nat → String
  analyzing : String → String
  deepAnalysis : String → String → String
  congratsMessage : String → Nat → String
  savePrompt : String → String
  noDataToSave : String
  resultsCaption : String → String
  resultsSaved : String → String
  exportHeader : String → String
  exportDate : String → String
  exportTime : String → String
  exportAnswers : String → String
  exportQuestionLabel : String → Nat → String
  exportAnswerLabel : String → String
  exportAnalysisHeader : String → String
  exportAnalysisUnavailable : String → String
  exportCongratsFooter : String → String
  aiFallback : String → Nat → String

/-- Outcome of the external summarization call (`src/ai/summary.js`):
whether `OPENROUTER_API_KEY` is set, and — when the HTTP request is made —
either the completion text or any failure (timeout, network error,
malformed response, all caught by the service's `try`/`catch`). -/
structure AiOutcome where
  apiKeyPresent : Bool
  response : Except Unit String

/-- `content.replace(/[#]/g, '')`. -/
def removeHash (s : String) : String :=
  String.mk (s.data.filter (fun c => c ≠ '#'))

/-- `generateSummary` of `src/ai/summary.js` (current revision): returns
the chain's fallback text when the API key is absent or the request fails,
otherwise the trimmed completion with `#` characters removed.  It is a
total function into `String` — the service never raises to its caller. -/
def generateSummary (cfg : Config) (qas : List QA) (lang : String)
    (chain : Nat) (ai : AiOutcome) : String :=
  if ai.apiKeyPresent = false then cfg.aiFallback lang chain
  else
    match ai.response with
    | .ok content => removeHash (jsTrim content)
    | .error _ => cfg.aiFallback lang chain

/-! ### `escapeMarkdown` (current-revision handler)

`text.replace(/\*\*(.*?)\*\*/g, '*$1*')`: each non-overlapping
`**` … `**` pair (lazy content, `.` does not cross newlines) is rewritten
to `*` … `*`; everything else is kept. -/

/-- Search for the earliest closing `**` with no intervening newline;
return the content before it and the rest after it. -/
def findBoldClose : List Char → Option (List Char × List Char)
  | '*' :: '*' :: rest => some ([], rest)
  | '\n' :: _ => none
  | c :: rest =>
      match findBoldClose rest with
      | some (content, r) => some (c :: content, r)
      | none => none
  | [] => none

/-- Left-to-right scan of the global replace; the fuel argument (always at
least the list length) keeps the recursion structural. -/
def boldConvAux : Nat → List Char → List Char
  | 0, cs => cs
  | fuel + 1, cs =>
      match cs with
      | '*' :: '*' :: rest =>
          match findBoldClose rest with
          | some (content, r) => '*' :: (content ++ '*' :: boldConvAux fuel r)
          | none => '*' :: boldConvAux fuel ('*' :: rest)
      | c :: rest => c :: boldConvAux fuel rest
      | [] => []

/-- `escapeMarkdown(text)`: empty (falsy) input maps to `''`. -/
def escapeMarkdown (s : String) : String :=
  if s = "" then ""
  else String.mk (boldConvAux s.data.length s.data)

/-! ## The question handler (`src/handler.js`, current revision) -/

def SESSION_TIMEOUT_MS : Nat := 30 * 60 * 1000

def CLEANUP_INTERVAL_MS : Nat := 10 * 60 * 1000

def MAX_ANSWER_LENGTH : Nat := 4000

/-- `startSession(chatId, lang = 'ru', chain = 1)`: the fresh session. -/
def freshSession (lang : String) (chain : Nat) (now : Nat) : Session :=
  { lang := lang, chain := chain, currentIndex := 0, answers := [],
    summary := none, lastActivity := now }

/-- `cleanupStaleSessions()`: delete every session whose idle time
strictly exceeds the timeout (the `Date.now()` of the tick is the
parameter `now`). -/
def cleanupStaleSessions (st : Store) (now : Nat) : Store :=
  st.filter (fun p => !decide (now - p.2.lastActivity > SESSION_TIMEOUT_MS))

/-- The hard-coded expired-session notice of `handleAnswer`. -/
def sessionExpiredMsg : String :=
  "⌛ Сессия истекла. Пожалуйста, введите /start, чтобы начать заново."

/-- `generateAndSendSummary(chatId)`: look the session up, produce the
analysis text via the summary service, store it, and send the four
result messages. -/
def generateAndSendSummary (cfg : Config) (st : Store) (id : Nat)
    (ai : AiOutcome) : Store × List Effect :=
  match storeGet st id with
  | none => (st, [])
  | some s =>
      let summary := generateSummary cfg s.answers s.lang s.chain ai
      let s' := { s with summary := some summary }
      (storeSet st id s',
       [Effect.msg id (cfg.analyzing s.lang),
        Effect.typing id,
        Effect.msg id (cfg.deepAnalysis s.lang (escapeMarkdown summary)),
        Effect.msg id (cfg.congratsMessage s.lang s.chain),
        Effect.buttons id (cfg.savePrompt s.lang)])

/-- `sendNextQuestion(chatId)`: when the cursor has passed the last
question, hand over to summary generation; otherwise send the progress
header plus the question at the cursor. -/
def sendNextQuestion (cfg : Config) (st : Store) (id : Nat)
    (ai : AiOutcome) : Store × List Effect :=
  match storeGet st id with
  | none => (st, [])
  | some s =>
      let questions := cfg.questions s.lang s.chain
      if s.currentIndex ≥ questions.length then
        generateAndSendSummary cfg st id ai
      else
        (st, [Effect.msg id
          (cfg.questionProgress s.lang (s.currentIndex + 1) questions.length ++
           questions.getD s.currentIndex "")])

/-- The session after the accept path of `handleAnswer` pushes
`{question: questions[currentIndex], answer: text.trim()}` and increments
`currentIndex`.  (`lastActivity` was already refreshed before
validation.) -/
def recordAnswer (cfg : Config) (s : Session) (text : String) : Session :=
  let questions := cfg.questions s.lang s.chain
  { s with
    answers := s.answers ++ [⟨questions.getD s.currentIndex "", jsTrim text⟩]
    currentIndex := s.currentIndex + 1 }

/-- `handleAnswer(chatId, text)` of the current-revision handler.  With no
session, non-command text gets the expired notice.  With a session,
`lastActivity` is refreshed first, then over-long raw text is rejected
with a re-prompt; otherwise the trimmed answer is recorded and the next
question (or the summary) follows. -/
def handleAnswer (cfg : Config) (st : Store) (id : Nat) (text : String)
    (now : Nat) (ai : AiOutcome) : Store × List Effect :=
  match storeGet st id with
  | none =>
      (st, if startsWithSlash text then [] else [Effect.msg id sessionExpiredMsg])
  | some s =>
      let s1 := { s with lastActivity := now }
      if jsLength text > MAX_ANSWER_LENGTH then
        (storeSet st id s1,
         [Effect.msg id (cfg.answerTooLong s.lang MAX_ANSWER_LENGTH)])
      else
        sendNextQuestion cfg (storeSet st id (recordAnswer cfg s1 text)) id ai

/-- `handleLanguageSelect(chatId, lang)`: unconditionally (re)creates the
session, then shows the lesson-selection keyboard. -/
def handleLanguageSelect (cfg : Config) (st : Store) (id : Nat)
    (lang : String) (now : Nat) : Store × List Effect :=
  (storeSet st id (freshSession lang 1 now),
   [Effect.buttons id (cfg.chooseAction lang)])

/-- `handleChainSelect(chatId, chainId)`: create a Russian session with
that chain when none exists, otherwise reset chain, cursor, answers and
summary in place (note: `lastActivity` is not refreshed on that path). -/
def handleChainSelect (cfg : Config) (st : Store) (id : Nat) (chainId : Nat)
    (now : Nat) : Store × List Effect :=
  let st' := match storeGet st id with
    | none => storeSet st id (freshSession "ru" chainId now)
    | some s => storeSet st id
        { s with chain := chainId, currentIndex := 0, answers := [],
                 summary := none }
  match storeGet st' id with
  | none => (st', [])
  | some s =>
      (st', [Effect.msg id (cfg.introMessage s.lang chainId),
             Effect.buttons id (cfg.chooseAction s.lang)])

/-- `handleStartQuestions(chatId)`: fall back to a fresh Russian session
when none exists, then send the next question. -/
def handleStartQuestions (cfg : Config) (st : Store) (id : Nat) (now : Nat)
    (ai : AiOutcome) : Store × List Effect :=
  let st' := match storeGet st id with
    | none => storeSet st id (freshSession "ru" 1 now)
    | some _ => st
  sendNextQuestion cfg st' id ai

/-- `handleRestart(chatId)`: clear the session; `handleStart` then only
shows the language keyboard (it creates no session in this revision). -/
def handleRestart (st : Store) (id : Nat) : Store × List Effect :=
  (storeDelete st id,
   [Effect.buttons id "🌐 Виберіть мову / Выберите язык:"])

/-! ## Transcript exporter (`saveResults`) -/

/-- The decorative double border of the export document. -/
def borderThick : String := "═══════════════════════════════════════════"

/-- The decorative single border of the export document. -/
def borderThin : String := "───────────────────────────────────────────"

/-- The per-pair block of the export document, in answer order. -/
def renderQABlocks (cfg : Config) (lang : String) : List (Nat × QA) → String
  | [] => ""
  | (i, qa) :: rest =>
      cfg.exportQuestionLabel lang (i + 1) ++ "\n" ++ qa.question ++ "\n\n" ++
      cfg.exportAnswerLabel lang ++ "\n" ++ qa.answer ++ "\n\n" ++
      borderThin ++ "\n\n" ++ renderQABlocks cfg lang rest

/-- The export document built by `saveResults`: title banner, localized
date and time lines, one block per recorded pair, then the analysis
section (the stored summary, or the unavailable placeholder when the
summary is null or empty — JS `session.summary || …`) and the footer. -/
def renderExport (cfg : Config) (s : Session) (dateStr timeStr : String) :
    String :=
  borderThick ++ "\n          " ++ cfg.exportHeader s.lang ++ "\n" ++
  borderThick ++ "\n\n" ++
  cfg.exportDate s.lang ++ " " ++ dateStr ++ "\n" ++
  cfg.exportTime s.lang ++ " " ++ timeStr ++ "\n\n" ++
  borderThin ++ "\n                 " ++ cfg.exportAnswers s.lang ++ "\n" ++
  borderThin ++ "\n\n" ++
  renderQABlocks cfg s.lang s.answers.enum ++
  "\n" ++ borderThick ++ "\n              " ++
  cfg.exportAnalysisHeader s.lang ++ "\n" ++ borderThick ++ "\n\n" ++
  jsOrStr s.summary (cfg.exportAnalysisUnavailable s.lang) ++
  "\n\n" ++ borderThick ++ "\n    " ++ cfg.exportCongratsFooter s.lang ++
  "\n" ++ borderThick ++ "\n"

/-- The export file path `exports/results_<chatId>_<timestamp>.txt`; the
ISO timestamp string is a parameter (it comes from `new Date()`). -/
def exportFilePath (id : Nat) (ts : String) : String :=
  "exports/results_" ++ toString id ++ "_" ++ ts ++ ".txt"

/-- The on-disk state of the exports directory: the set of file paths
present, as a list. -/
abbrev FsState := List String

/-- `fs.writeFileSync`. -/
def fsWrite (fs : FsState) (path : String) : FsState :=
  path :: fs.filter (fun q => q ≠ path)

/-- `fs.unlinkSync`. -/
def fsUnlink (fs : FsState) (path : String) : FsState :=
  fs.filter (fun q => q ≠ path)

/-- `saveResults(chatId)` of the current-revision handler.  With no
session: one error message, nothing else.  Otherwise: render, write the
temp file, attempt the document send (`sendDocument` traps transport
failures, so both outcomes `sendOk = true/false` continue identically),
then delete the file (in a `try` block), then confirm.  The session store
is returned untouched. -/
def saveResults (cfg : Config) (st : Store) (fs : FsState) (id : Nat)
    (ts dateStr timeStr : String) (sendOk : Bool) :
    Store × FsState × List Effect :=
  match storeGet st id with
  | none => (st, fs, [Effect.msg id cfg.noDataToSave])
  | some s =>
      let path := exportFilePath id ts
      let content := renderExport cfg s dateStr timeStr
      let fs1 := fsWrite fs path
      let fs2 := fsUnlink fs1 path
      (st, fs2,
       [Effect.fileWrite path content,
        Effect.docSend id path (cfg.resultsCaption s.lang) sendOk,
        Effect.fileDelete path,
        Effect.msg id (cfg.resultsSaved s.lang)])

/-- `saveResults(chatId)` of the earlier revision (the two-language
handler): identical rendering and send, but the written file is never
unlinked — it stays on disk after the call. -/
def saveResultsLegacy (cfg : Config) (st : Store) (fs : FsState) (id : Nat)
    (ts dateStr timeStr : String) (sendOk : Bool) :
    Store × FsState × List Effect :=
  match storeGet st id with
  | none => (st, fs, [Effect.msg id cfg.noDataToSave])
  | some s =>
      let path := exportFilePath id ts
      let content := renderExport cfg s dateStr timeStr
      let fs1 := fsWrite fs path
      (st, fs1,
       [Effect.fileWrite path content,
        Effect.docSend id path (cfg.resultsCaption s.lang) sendOk,
        Effect.msg id (cfg.resultsSaved s.lang)])

/-! ## Transcript import (`handleUploadedFile`, upload-variant handler) -/

/-- The error notice when no pairs are recognized. -/
def noAnswersFoundMsg : String :=
  "❌ Не удалось найти ответы в файле. Убедитесь, что файл содержит вопросы и ответы."

/-- `handleUploadedFile(chatId, fileId, fileName)` with the downloaded
file content as input.  Zero recognized pairs: an error notice, the store
untouched.  Otherwise `sessions.set` installs a session whose cursor
equals the number of parsed pairs, with the pairs as answers and no
summary, and summary generation runs immediately.  (That revision's
sessions carry no language or chain; the unified model fills in the
defaults.) -/
def handleUploadedFile (cfg : Config) (st : Store) (id : Nat)
    (content fileName : String) (now : Nat) (ai : AiOutcome) :
    Store × List Effect :=
  let qaPairs := parseQAFromText content
  if qaPairs.length = 0 then
    (st, [Effect.msg id noAnswersFoundMsg])
  else
    let st1 := storeSet st id
      { lang := "ru", chain := 1, currentIndex := qaPairs.length,
        answers := qaPairs, summary := none, lastActivity := now }
    let res := generateAndSendSummary cfg st1 id ai
    (res.1,
     Effect.msg id ("📄 Файл получен: *" ++ fileName ++ "*") ::
     Effect.typing id :: res.2)

/-! ## The message router (`src/index.js`) -/

/-- `getSessionQuestions(chatId)`: the question list for the session's
language and chain, with the defaults `'ru'` and `1` when no session
exists (the chain ids in use are 1–3, so JS `session?.chain || 1` is
the session's chain whenever a session is present). -/
def getSessionQuestions (cfg : Config) (st : Store) (id : Nat) :
    List String :=
  match storeGet st id with
  | some s => cfg.questions s.lang s.chain
  | none => cfg.questions "ru" 1

/-- The `onMessage` text handler of `src/index.js`: command texts are
skipped, and `handleAnswer` runs only when a session exists and its
cursor is still inside the question list — otherwise the message is
dropped with no effect at all. -/
def onMessage (cfg : Config) (st : Store) (id : Nat) (text : String)
    (now : Nat) (ai : AiOutcome) : Store × List Effect :=
  if startsWithSlash text then (st, [])
  else
    match storeGet st id with
    | some s =>
        if s.currentIndex < (getSessionQuestions cfg st id).length then
          handleAnswer cfg st id text now ai
        else (st, [])
    | none => (st, [])

/-! ## The event machine

Every externally triggered operation that can touch the session store,
over the handlers above.  `Reachable` is the set of stores the process
can be in (starting from the empty `Map`). -/

inductive Event where
  | langSelect (id : Nat) (lang : String) (now : Nat)
  | chainSelect (id : Nat) (chain : Nat) (now : Nat)
  | startQuestions (id : Nat) (now : Nat) (ai : AiOutcome)
  | textMessage (id : Nat) (text : String) (now : Nat) (ai : AiOutcome)
  | upload (id : Nat) (content fileName : String) (now : Nat) (ai : AiOutcome)
  | save (id : Nat) (ts dateStr timeStr : String) (sendOk : Bool)
  | restart (id : Nat)
  | sweep (now : Nat)

/-- The store after one inbound event. -/
def stepStore (cfg : Config) (st : Store) : Event → Store
  | .langSelect id lang now => (handleLanguageSelect cfg st id lang now).1
  | .chainSelect id chain now => (handleChainSelect cfg st id chain now).1
  | .startQuestions id now ai => (handleStartQuestions cfg st id now ai).1
  | .textMessage id text now ai => (onMessage cfg st id text now ai).1
  | .upload id content name now ai =>
      (handleUploadedFile cfg st id content name now ai).1
  | .save id ts dateStr timeStr sendOk =>
      (saveResults cfg st [] id ts dateStr timeStr sendOk).1
  | .restart id => (handleRestart st id).1
  | .sweep now => cleanupStaleSessions st now

/-- The stores reachable from process start (an empty session map). -/
inductive Reachable (cfg : Config) : Store → Prop
  | init : Reachable cfg []
  | step (st : Store) (e : Event) : Reachable cfg st →
      Reachable cfg (stepStore cfg st e)

/-! ## A concrete configuration

Used by witnesses and counterexamples; the question list follows the
two-question scenario of the specification. -/

def cfg0 : Config where
  questions := fun _ _ => ["A?", "B?"]
  questionProgress := fun _ cur total =>
    "Q " ++ toString cur ++ "/" ++ toString total ++ ": "
  answerTooLong := fun _ n => "too long, max " ++ toString n
  chooseAction := fun _ => "choose"
  introMessage := fun _ _ => "intro"
  analyzing := fun _ => "analyzing"
  deepAnalysis := fun _ t => "analysis: " ++ t
  congratsMessage := fun _ _ => "congrats"
  savePrompt := fun _ => "save?"
  noDataToSave := "no data"
  resultsCaption := fun _ => "caption"
  resultsSaved := fun _ => "saved"
  exportHeader := fun _ => "HDR"
  exportDate := fun _ => "Date:"
  exportTime := fun _ => "Time:"
  exportAnswers := fun _ => "ANSWERS"
  exportQuestionLabel := fun _ i => "Q" ++ toString i
  exportAnswerLabel := fun _ => "A:"
  exportAnalysisHeader := fun _ => "ANALYSIS"
  exportAnalysisUnavailable := fun _ => "unavailable"
  exportCongratsFooter := fun _ => "footer"
  aiFallback := fun _ _ => "FALLBACK"

/-- A summary-service outcome where the key is present and the call
succeeds with the given text. -/
def aiOk (text : String) : AiOutcome := ⟨true, .ok text⟩

/-! ## Store lemmas -/

theorem storeGet_storeSet_self (st : Store) (id : Nat) (v : Session) :
    storeGet (storeSet st id v) id = some v := by
  induction st with
  | nil => simp [storeSet, storeGet]
  | cons p rest ih =>
      obtain ⟨k, w⟩ := p
      by_cases h : k = id
      · subst h; simp [storeSet, storeGet]
      · simp [storeSet, storeGet, h, ih]

theorem storeGet_storeSet_ne (st : Store) {id j : Nat} (v : Session)
    (h : j ≠ id) : storeGet (storeSet st id v) j = storeGet st j := by
  induction st with
  | nil => simp [storeSet, storeGet, Ne.symm h]
  | cons p rest ih =>
      obtain ⟨k, w⟩ := p
      by_cases hk : k = id
      · subst hk
        simp [storeSet, storeGet, Ne.symm h]
      · simp [storeSet, storeGet, hk, ih]

theorem mem_of_storeGet {st : Store} {id : Nat} {s : Session}
    (h : storeGet st id = some s) : (id, s) ∈ st := by
  induction st with
  | nil => simp [storeGet] at h
  | cons p rest ih =>
      obtain ⟨k, w⟩ := p
      by_cases hk : k = id
      · subst hk
        simp [storeGet] at h
        subst h; exact List.mem_cons_self _ _
      · simp [storeGet, hk] at h
        exact List.mem_cons_of_mem _ (ih h)

theorem mem_storeSet {st : Store} {id j : Nat} {v t : Session}
    (h : (j, t) ∈ storeSet st id v) : (j = id ∧ t = v) ∨ (j, t) ∈ st := by
  induction st with
  | nil =>
      simp [storeSet] at h
      exact Or.inl ⟨h.1, h.2⟩
  | cons p rest ih =>
      obtain ⟨k, w⟩ := p
      by_cases hk : k = id
      · subst hk
        simp [storeSet] at h
        rcases h with ⟨hj, ht⟩ | hmem
        · exact Or.inl ⟨hj, ht⟩
        · exact Or.inr (List.mem_cons_of_mem _ hmem)
      · simp only [storeSet, if_neg hk, List.mem_cons] at h
        rcases h with he | hmem
        · exact Or.inr (List.mem_cons.mpr (Or.inl he))
        · rcases ih hmem with hl | hr
          · exact Or.inl hl
          · exact Or.inr (List.mem_cons_of_mem _ hr)

/-! ## The `len(answers) = cursor` invariant (claim C1) -/

/-- A session at a stable point: the answer list is exactly as long as the
cursor. -/
def SessionOk (s : Session) : Prop :=
  s.answers.length = s.currentIndex

/-- Every session of the store is at a stable point. -/
def StoreOk (st : Store) : Prop :=
  ∀ p ∈ st, SessionOk p.2

theorem StoreOk_nil : StoreOk [] := by simp [StoreOk]

theorem sessionOk_of_storeGet {st : Store} {id : Nat} {s : Session}
    (h : StoreOk st) (hg : storeGet st id = some s) : SessionOk s :=
  h (id, s) (mem_of_storeGet hg)

theorem StoreOk_storeSet {st : Store} {id : Nat} {v : Session}
    (h : StoreOk st) (hv : SessionOk v) : StoreOk (storeSet st id v) := by
  intro p hp
  obtain ⟨j, t⟩ := p
  rcases mem_storeSet hp with ⟨_, rfl⟩ | hmem
  · exact hv
  · exact h _ hmem

theorem StoreOk_filter {st : Store} {p : Nat × Session → Bool}
    (h : StoreOk st) : StoreOk (st.filter p) := by
  intro q hq
  exact h q (List.mem_of_mem_filter hq)

theorem StoreOk_generateAndSendSummary {cfg : Config} {st : Store}
    {id : Nat} {ai : AiOutcome} (h : StoreOk st) :
    StoreOk (generateAndSendSummary cfg st id ai).1 := by
  unfold generateAndSendSummary
  cases hg : storeGet st id with
  | none => exact h
  | some s =>
      have hs := sessionOk_of_storeGet h hg
      exact StoreOk_storeSet h (by simpa [SessionOk] using hs)

theorem StoreOk_sendNextQuestion {cfg : Config} {st : Store} {id : Nat}
    {ai : AiOutcome} (h : StoreOk st) :
    StoreOk (sendNextQuestion cfg st id ai).1 := by
  unfold sendNextQuestion
  cases hg : storeGet st id with
  | none => exact h
  | some s =>
      by_cases hge : s.currentIndex ≥ (cfg.questions s.lang s.chain).length
      · simpa [hge] using @StoreOk_generateAndSendSummary cfg st id ai h
      · simpa [hge] using h

theorem sessionOk_recordAnswer {cfg : Config} {s : Session} (text : String)
    (h : SessionOk s) : SessionOk (recordAnswer cfg s text) := by
  simp [SessionOk, recordAnswer] at h ⊢
  omega

theorem StoreOk_handleAnswer {cfg : Config} {st : Store} {id : Nat}
    {text : String} {now : Nat} {ai : AiOutcome} (h : StoreOk st) :
    StoreOk (handleAnswer cfg st id text now ai).1 := by
  unfold handleAnswer
  cases hg : storeGet st id with
  | none => exact h
  | some s =>
      have hs := sessionOk_of_storeGet h hg
      by_cases hl : jsLength text > MAX_ANSWER_LENGTH
      · simpa [hl] using
          StoreOk_storeSet h (by simpa [SessionOk] using hs)
      · have h1 : SessionOk { s with lastActivity := now } := by
          simpa [SessionOk] using hs
        simpa [hl] using
          StoreOk_sendNextQuestion
            (StoreOk_storeSet h (sessionOk_recordAnswer text h1))

theorem StoreOk_onMessage {cfg : Config} {st : Store} {id : Nat}
    {text : String} {now : Nat} {ai : AiOutcome} (h : StoreOk st) :
    StoreOk (onMessage cfg st id text now ai).1 := by
  unfold onMessage
  by_cases hc : startsWithSlash text
  · simpa [hc] using h
  · cases hg : storeGet st id with
    | none => simpa [hc] using h
    | some s =>
        by_cases hi : s.currentIndex < (getSessionQuestions cfg st id).length
        · simpa [hc, hi] using StoreOk_handleAnswer h
        · simpa [hc, hi] using h

theorem saveResults_store_eq (cfg : Config) (st : Store) (fs : FsState)
    (id : Nat) (ts dateStr timeStr : String) (sendOk : Bool) :
    (saveResults cfg st fs id ts dateStr timeStr sendOk).1 = st := by
  unfold saveResults
  cases storeGet st id <;> rfl

theorem StoreOk_step {cfg : Config} {st : Store} (e : Event)
    (h : StoreOk st) : StoreOk (stepStore cfg st e) := by
  cases e with
  | langSelect id lang now =>
      exact StoreOk_storeSet h (by simp [SessionOk, freshSession])
  | chainSelect id chain now =>
      simp only [stepStore, handleChainSelect]
      cases hg : storeGet st id with
      | none =>
          simp only [hg]
          have h1 : StoreOk (storeSet st id (freshSession "ru" chain now)) :=
            StoreOk_storeSet h (by simp [SessionOk, freshSession])
          cases storeGet (storeSet st id (freshSession "ru" chain now)) id <;>
            exact h1
      | some s =>
          simp only [hg]
          have h1 : StoreOk (storeSet st id
              { s with chain := chain, currentIndex := 0, answers := [],
                       summary := none }) :=
            StoreOk_storeSet h (by simp [SessionOk])
          cases storeGet (storeSet st id
              { s with chain := chain, currentIndex := 0, answers := [],
                       summary := none }) id <;> exact h1
  | startQuestions id now ai =>
      simp only [stepStore, handleStartQuestions]
      cases hg : storeGet st id with
      | none =>
          simp only [hg]
          exact StoreOk_sendNextQuestion
            (StoreOk_storeSet h (by simp [SessionOk, freshSession]))
      | some s =>
          simp only [hg]
          exact StoreOk_sendNextQuestion h
  | textMessage id text now ai => exact StoreOk_onMessage h
  | upload id content name now ai =>
      simp only [stepStore, handleUploadedFile]
      by_cases hz : (parseQAFromText content).length = 0
      · simpa [hz] using h
      · simpa [hz] using
          StoreOk_generateAndSendSummary
            (StoreOk_storeSet h (by simp [SessionOk]))
  | save id ts dateStr timeStr sendOk =>
      simpa [stepStore, saveResults_store_eq] using h
  | restart id => exact StoreOk_filter h
  | sweep now => exact StoreOk_filter h

/-- Every reachable store keeps every session at a stable point. -/
theorem StoreOk_of_Reachable {cfg : Config} {st : Store}
    (h : Reachable cfg st) : StoreOk st := by
  induction h with
  | init => exact StoreOk_nil
  | step st e _ ih => exact StoreOk_step e ih

/-! ## Behavioral helper lemmas -/

theorem handleAnswer_noSession {cfg : Config} {st : Store} {id : Nat}
    {text : String} {now : Nat} {ai : AiOutcome}
    (hg : storeGet st id = none) :
    handleAnswer cfg st id text now ai =
      (st, if startsWithSlash text then [] else [Effect.msg id sessionExpiredMsg]) := by
  unfold handleAnswer
  simp [hg]

theorem handleAnswer_long {cfg : Config} {st : Store} {id : Nat}
    {s : Session} {text : String} {now : Nat} {ai : AiOutcome}
    (hg : storeGet st id = some s)
    (hl : jsLength text > MAX_ANSWER_LENGTH) :
    handleAnswer cfg st id text now ai =
      (storeSet st id { s with lastActivity := now },
       [Effect.msg id (cfg.answerTooLong s.lang MAX_ANSWER_LENGTH)]) := by
  unfold handleAnswer
  simp [hg, hl]

theorem handleAnswer_accept {cfg : Config} {st : Store} {id : Nat}
    {s : Session} {text : String} {now : Nat} {ai : AiOutcome}
    (hg : storeGet st id = some s)
    (hl : ¬ jsLength text > MAX_ANSWER_LENGTH) :
    handleAnswer cfg st id text now ai =
      sendNextQuestion cfg
        (storeSet st id (recordAnswer cfg { s with lastActivity := now } text))
        id ai := by
  unfold handleAnswer
  simp [hg, hl]

theorem storeGet_sendNextQuestion_self {cfg : Config} {st : Store}
    {id : Nat} {ai : AiOutcome} {s : Session}
    (hg : storeGet st id = some s) :
    storeGet (sendNextQuestion cfg st id ai).1 id = some s ∨
    storeGet (sendNextQuestion cfg st id ai).1 id =
      some { s with
             summary := some (generateSummary cfg s.answers s.lang s.chain ai) } := by
  unfold sendNextQuestion generateAndSendSummary
  by_cases hge : s.currentIndex ≥ (cfg.questions s.lang s.chain).length
  · exact Or.inr (by simp [hg, hge, storeGet_storeSet_self])
  · exact Or.inl (by simp [hg, hge])

theorem generateAndSendSummary_sets {cfg : Config} {st : Store} {id : Nat}
    {ai : AiOutcome} {s : Session} (hg : storeGet st id = some s) :
    storeGet (generateAndSendSummary cfg st id ai).1 id =
      some { s with
             summary := some (generateSummary cfg s.answers s.lang s.chain ai) } := by
  unfold generateAndSendSummary
  simp [hg, storeGet_storeSet_self]

theorem sendNextQuestion_done {cfg : Config} {st : Store} {id : Nat}
    {ai : AiOutcome} {s : Session} (hg : storeGet st id = some s)
    (hdone : s.currentIndex ≥ (cfg.questions s.lang s.chain).length) :
    sendNextQuestion cfg st id ai = generateAndSendSummary cfg st id ai := by
  unfold sendNextQuestion
  simp [hg, hdone]

theorem handleUploadedFile_zero {cfg : Config} {st : Store} {id : Nat}
    {content fileName : String} {now : Nat} {ai : AiOutcome}
    (h : parseQAFromText content = []) :
    handleUploadedFile cfg st id content fileName now ai =
      (st, [Effect.msg id noAnswersFoundMsg]) := by
  unfold handleUploadedFile
  simp [h]

theorem handleUploadedFile_pos {cfg : Config} {st : Store} {id : Nat}
    {content fileName : String} {now : Nat} {ai : AiOutcome}
    (h : parseQAFromText content ≠ []) :
    storeGet (handleUploadedFile cfg st id content fileName now ai).1 id =
      some { lang := "ru", chain := 1,
             currentIndex := (parseQAFromText content).length,
             answers := parseQAFromText content,
             summary := some (generateSummary cfg (parseQAFromText content)
               "ru" 1 ai),
             lastActivity := now } := by
  unfold handleUploadedFile generateAndSendSummary
  have hz : ¬ (parseQAFromText content).length = 0 := by simpa using h
  simp [hz, storeGet_storeSet_self]

theorem length_dropWhile_le' (p : Char → Bool) (l : List Char) :
    (l.dropWhile p).length ≤ l.length := by
  induction l with
  | nil => simp
  | cons a l ih =>
      rw [List.dropWhile_cons]
      split
      · simp only [List.length_cons]
        omega
      · simp

theorem jsTrim_length_le (s : String) : jsLength (jsTrim s) ≤ jsLength s := by
  have h1 := length_dropWhile_le' isJsWs s.data
  have h2 := length_dropWhile_le' isJsWs (s.data.dropWhile isJsWs).reverse
  simp only [jsLength, jsTrim, jsTrimList, List.length_reverse] at *
  omega

/-! ## Claims -/

/-- Claim C1: for every session and every accepted answer, the length of
the session's answers list equals `currentIndex` immediately after the
answer is recorded and before the next prompt is sent, and on every
reachable store; sessions produced by the transcript import carry
`currentIndex` equal to the number of parsed pairs, which is also their
answer-list length. -/
theorem claim_C1 :
    (∀ (cfg : Config) (st : Store), Reachable cfg st →
       ∀ (id : Nat) (s : Session), storeGet st id = some s →
         s.answers.length = s.currentIndex) ∧
    (∀ (cfg : Config) (s : Session) (text : String),
       s.answers.length = s.currentIndex →
         (recordAnswer cfg s text).answers.length =
           (recordAnswer cfg s text).currentIndex) ∧
    (∀ (cfg : Config) (st : Store) (id : Nat)
       (content fileName : String) (now : Nat) (ai : AiOutcome),
       parseQAFromText content ≠ [] →
         ∃ s, storeGet
             (handleUploadedFile cfg st id content fileName now ai).1 id =
             some s ∧
           s.currentIndex = (parseQAFromText content).length ∧
           s.answers = parseQAFromText content ∧
           s.answers.length = s.currentIndex) := by
  refine ⟨?_, ?_, ?_⟩
  · intro cfg st hre id s hg
    exact sessionOk_of_storeGet (StoreOk_of_Reachable hre) hg
  · intro cfg s text h
    exact sessionOk_recordAnswer text h
  · intro cfg st id content fileName now ai h
    exact ⟨_, handleUploadedFile_pos h, rfl, rfl, rfl⟩

def c1Store : Store :=
  stepStore cfg0 (stepStore cfg0 [] (Event.langSelect 0 "ru" 0))
    (Event.textMessage 0 "hi" 1 (aiOk "S"))

def c1Session : Session :=
  { lang := "ru", chain := 1, currentIndex := 1,
    answers := [⟨"A?", "hi"⟩], summary := none, lastActivity := 1 }

theorem claim_C1_witness :
    Reachable cfg0 c1Store ∧
    storeGet c1Store 0 = some c1Session ∧
    c1Session.answers.length = c1Session.currentIndex := by
  have hre : Reachable cfg0 c1Store :=
    Reachable.step _ (Event.textMessage 0 "hi" 1 (aiOk "S"))
      (Reachable.step _ (Event.langSelect 0 "ru" 0) Reachable.init)
  have hget : storeGet c1Store 0 = some c1Session := by decide
  exact ⟨hre, hget, claim_C1.1 cfg0 c1Store hre 0 c1Session hget⟩

/-- Claim C2 (amended): a raw input longer than 4000 characters is
rejected — the cursor is not advanced, nothing is appended to the
answers, the summary, language and chain are untouched, and the user is
re-prompted — but the session is not entirely unchanged: its
`lastActivity` is refreshed before validation runs, so the rejected
attempt still counts as activity. -/
theorem claim_C2 (cfg : Config) (st : Store) (id : Nat) (s : Session)
    (text : String) (now : Nat) (ai : AiOutcome)
    (hg : storeGet st id = some s)
    (hl : jsLength text > MAX_ANSWER_LENGTH) :
    handleAnswer cfg st id text now ai =
      (storeSet st id { s with lastActivity := now },
       [Effect.msg id (cfg.answerTooLong s.lang MAX_ANSWER_LENGTH)]) ∧
    storeGet (handleAnswer cfg st id text now ai).1 id =
      some { s with lastActivity := now } := by
  have h := @handleAnswer_long cfg st id s text now ai hg hl
  exact ⟨h, by rw [h]; exact storeGet_storeSet_self st id _⟩

/-- A 4001-character input. -/
def c2LongText : String := String.mk (List.replicate 4001 'a')

theorem c2LongText_length : jsLength c2LongText = 4001 := by
  rw [show jsLength c2LongText = (List.replicate 4001 'a').length from rfl,
    List.length_replicate]

def c2Session : Session :=
  { lang := "ru", chain := 1, currentIndex := 1,
    answers := [⟨"A?", "x"⟩], summary := none, lastActivity := 0 }

def c2Store : Store := [(0, c2Session)]

/-- Claim C2 as frozen is false: submitting an over-long answer does
change the session state — `lastActivity` moves from 0 to 1 even though
the answer is rejected with the re-prompt. -/
theorem claim_C2_counterexample :
    (handleAnswer cfg0 c2Store 0 c2LongText 1 (aiOk "S")).2 =
      [Effect.msg 0 (cfg0.answerTooLong "ru" MAX_ANSWER_LENGTH)] ∧
    (handleAnswer cfg0 c2Store 0 c2LongText 1 (aiOk "S")).1 ≠ c2Store := by
  have hg : storeGet c2Store 0 = some c2Session := rfl
  have hl : jsLength c2LongText > MAX_ANSWER_LENGTH := by
    rw [c2LongText_length]; decide
  have h := @handleAnswer_long cfg0 c2Store 0 c2Session c2LongText 1
    (aiOk "S") hg hl
  rw [h]
  refine ⟨rfl, ?_⟩
  decide

theorem claim_C2_witness :
    storeGet c2Store 0 = some c2Session ∧
    jsLength c2LongText > MAX_ANSWER_LENGTH ∧
    handleAnswer cfg0 c2Store 0 c2LongText 1 (aiOk "S") =
      (storeSet c2Store 0 { c2Session with lastActivity := 1 },
       [Effect.msg 0 (cfg0.answerTooLong c2Session.lang MAX_ANSWER_LENGTH)]) := by
  have hg : storeGet c2Store 0 = some c2Session := rfl
  have hl : jsLength c2LongText > MAX_ANSWER_LENGTH := by
    rw [c2LongText_length]; decide
  exact ⟨hg, hl,
    (claim_C2 cfg0 c2Store 0 c2Session c2LongText 1 (aiOk "S") hg hl).1⟩

/-- Claim C3: once the cursor equals the question count, the next engine
action is the summarization call, after which the session always holds a
non-absent summary; the summary service returns the configured fallback
on any internal failure (missing API key, or any caught request error)
and is a total function — it never raises to the engine. -/
theorem claim_C3 (cfg : Config) (st : Store) (id : Nat) (s : Session)
    (ai : AiOutcome) (hg : storeGet st id = some s)
    (hdone : s.currentIndex ≥ (cfg.questions s.lang s.chain).length) :
    sendNextQuestion cfg st id ai = generateAndSendSummary cfg st id ai ∧
    storeGet (generateAndSendSummary cfg st id ai).1 id =
      some { s with
             summary := some (generateSummary cfg s.answers s.lang s.chain ai) } ∧
    (ai.apiKeyPresent = false →
       generateSummary cfg s.answers s.lang s.chain ai =
         cfg.aiFallback s.lang s.chain) ∧
    (∀ e : Unit, ai.response = .error e →
       generateSummary cfg s.answers s.lang s.chain ai =
         cfg.aiFallback s.lang s.chain) := by
  refine ⟨sendNextQuestion_done hg hdone, generateAndSendSummary_sets hg,
    ?_, ?_⟩
  · intro hk
    unfold generateSummary
    simp [hk]
  · intro e he
    unfold generateSummary
    cases hk : ai.apiKeyPresent <;> simp [hk, he]

def c3Session : Session :=
  { lang := "ru", chain := 1, currentIndex := 2,
    answers := [⟨"A?", "a"⟩, ⟨"B?", "b"⟩], summary := none,
    lastActivity := 0 }

def c3Store : Store := [(0, c3Session)]

/-- A summarization outcome where the API key is missing and the request
(never made) would have failed as well. -/
def c3Ai : AiOutcome := ⟨false, .error ()⟩

theorem claim_C3_witness :
    storeGet c3Store 0 = some c3Session ∧
    c3Session.currentIndex ≥
      (cfg0.questions c3Session.lang c3Session.chain).length ∧
    storeGet (generateAndSendSummary cfg0 c3Store 0 c3Ai).1 0 =
      some { c3Session with
             summary := some (generateSummary cfg0 c3Session.answers
               c3Session.lang c3Session.chain c3Ai) } ∧
    generateSummary cfg0 c3Session.answers c3Session.lang c3Session.chain
      c3Ai = cfg0.aiFallback c3Session.lang c3Session.chain := by
  have hg : storeGet c3Store 0 = some c3Session := rfl
  have hdone : c3Session.currentIndex ≥
      (cfg0.questions c3Session.lang c3Session.chain).length := by decide
  have h := claim_C3 cfg0 c3Store 0 c3Session c3Ai hg hdone
  exact ⟨hg, hdone, h.2.1, h.2.2.1 rfl⟩

/-- Claim C4 (amended): the summary field is written only by the
summarization step, and export never touches the store; but the summary
is not write-once — on a session whose cursor has reached the question
count (a Completed session included), pressing the start-questions
button re-enters summarization and overwrites the stored summary with
the fresh result, so destroying the session is not required to obtain a
new summary. -/
theorem claim_C4 (cfg : Config) (st : Store) (fs : FsState) (id : Nat)
    (s : Session) (now : Nat) (ai : AiOutcome)
    (ts dateStr timeStr : String) (sendOk : Bool)
    (hg : storeGet st id = some s)
    (hdone : s.currentIndex ≥ (cfg.questions s.lang s.chain).length) :
    storeGet (handleStartQuestions cfg st id now ai).1 id =
      some { s with
             summary := some (generateSummary cfg s.answers s.lang s.chain ai) } ∧
    (saveResults cfg st fs id ts dateStr timeStr sendOk).1 = st := by
  refine ⟨?_, saveResults_store_eq ..⟩
  unfold handleStartQuestions
  rw [hg]
  rw [sendNextQuestion_done hg hdone]
  exact generateAndSendSummary_sets hg

def c4Session : Session :=
  { lang := "ru", chain := 1, currentIndex := 2,
    answers := [⟨"A?", "a"⟩, ⟨"B?", "b"⟩], summary := some "OLD",
    lastActivity := 0 }

def c4Store : Store := [(0, c4Session)]

/-- Claim C4 as frozen is false: on this Completed session (summary
`"OLD"` stored), the start-questions action alone — no restart, no new
session — overwrites the stored summary with the fresh result `"NEW"`. -/
theorem claim_C4_counterexample :
    c4Session.summary = some "OLD" ∧
    storeGet (handleStartQuestions cfg0 c4Store 0 9 (aiOk "NEW")).1 0 =
      some { c4Session with summary := some "NEW" } := by
  constructor
  · rfl
  · decide

theorem claim_C4_witness :
    storeGet c4Store 0 = some c4Session ∧
    c4Session.currentIndex ≥
      (cfg0.questions c4Session.lang c4Session.chain).length ∧
    storeGet (handleStartQuestions cfg0 c4Store 0 9 (aiOk "NEW")).1 0 =
      some { c4Session with
             summary := some (generateSummary cfg0 c4Session.answers
               c4Session.lang c4Session.chain (aiOk "NEW")) } ∧
    (saveResults cfg0 c4Store [] 0 "ts" "d" "t" true).1 = c4Store := by
  have hg : storeGet c4Store 0 = some c4Session := rfl
  have hdone : c4Session.currentIndex ≥
      (cfg0.questions c4Session.lang c4Session.chain).length := by decide
  have h := claim_C4 cfg0 c4Store [] 0 c4Session 9 (aiOk "NEW")
    "ts" "d" "t" true hg hdone
  exact ⟨hg, hdone, h.1, h.2⟩

def c5Stale : Session :=
  { lang := "ru", chain := 1, currentIndex := 0, answers := [],
    summary := none, lastActivity := 0 }

def c5Alive : Session :=
  { lang := "ru", chain := 1, currentIndex := 0, answers := [],
    summary := none, lastActivity := 21 * 60 * 1000 }

def c5Store : Store := [(1, c5Stale), (2, c5Alive)]

/-- Claim C5: the sweep fires every `CLEANUP_INTERVAL_MS` = 10 minutes,
and each tick keeps exactly the sessions whose idle time is at most the
30-minute timeout; at a tick 31 minutes after one session's last
activity and 10 minutes after another's, the first is removed and the
second survives untouched. -/
theorem claim_C5 :
    (∀ (st : Store) (now : Nat),
       cleanupStaleSessions st now =
         st.filter (fun p =>
           decide (now - p.2.lastActivity ≤ SESSION_TIMEOUT_MS))) ∧
    SESSION_TIMEOUT_MS = 30 * 60 * 1000 ∧
    CLEANUP_INTERVAL_MS = 10 * 60 * 1000 ∧
    CLEANUP_INTERVAL_MS < SESSION_TIMEOUT_MS ∧
    cleanupStaleSessions c5Store (31 * 60 * 1000) = [(2, c5Alive)] := by
  refine ⟨?_, rfl, rfl, by decide, by decide⟩
  intro st now
  unfold cleanupStaleSessions
  apply List.filter_congr
  intro p _
  rw [← decide_not]
  exact decide_eq_decide.mpr Nat.not_lt

/-- Claim C6 (amended): an uploaded transcript with zero recognized pairs
produces an error notice and leaves the store untouched; one with at
least one pair populates a session directly at `cursor` equal to the
number of parsed pairs — which need not equal the configured question
count — with the pairs as answers, and proceeds straight into
summarization (the summary is already set by the time the call
returns). -/
theorem claim_C6 (cfg : Config) (st : Store) (id : Nat)
    (content fileName : String) (now : Nat) (ai : AiOutcome) :
    (parseQAFromText content = [] →
       handleUploadedFile cfg st id content fileName now ai =
         (st, [Effect.msg id noAnswersFoundMsg])) ∧
    (parseQAFromText content ≠ [] →
       storeGet (handleUploadedFile cfg st id content fileName now ai).1 id =
         some { lang := "ru", chain := 1,
                currentIndex := (parseQAFromText content).length,
                answers := parseQAFromText content,
                summary := some (generateSummary cfg (parseQAFromText content)
                  "ru" 1 ai),
                lastActivity := now }) :=
  ⟨fun h => handleUploadedFile_zero h, fun h => handleUploadedFile_pos h⟩

/-- A transcript that the parser reads as exactly one pair (the
configured question list has two questions). -/
def c6Content : String := "1. q\na"

/-- Claim C6 as frozen is false: the session created from `c6Content` has
`cursor = 1`, the number of parsed pairs, and not `questionCount = 2`. -/
theorem claim_C6_counterexample :
    (storeGet (handleUploadedFile cfg0 [] 0 c6Content "f.txt" 3
        (aiOk "S")).1 0).map Session.currentIndex =
      some (parseQAFromText c6Content).length ∧
    (storeGet (handleUploadedFile cfg0 [] 0 c6Content "f.txt" 3
        (aiOk "S")).1 0).map Session.currentIndex ≠
      some (cfg0.questions "ru" 1).length := by
  constructor
  · decide
  · decide

theorem claim_C6_witness :
    parseQAFromText "" = [] ∧
    handleUploadedFile cfg0 [] 0 "" "f.txt" 3 (aiOk "S") =
      ([], [Effect.msg 0 noAnswersFoundMsg]) ∧
    parseQAFromText c6Content ≠ [] ∧
    storeGet (handleUploadedFile cfg0 [] 0 c6Content "f.txt" 3
        (aiOk "S")).1 0 =
      some { lang := "ru", chain := 1,
             currentIndex := (parseQAFromText c6Content).length,
             answers := parseQAFromText c6Content,
             summary := some (generateSummary cfg0 (parseQAFromText c6Content)
               "ru" 1 (aiOk "S")),
             lastActivity := 3 } := by
  have hz : parseQAFromText "" = [] := by decide
  have hp : parseQAFromText c6Content ≠ [] := by decide
  exact ⟨hz, (claim_C6 cfg0 [] 0 "" "f.txt" 3 (aiOk "S")).1 hz, hp,
    (claim_C6 cfg0 [] 0 c6Content "f.txt" 3 (aiOk "S")).2 hp⟩

/-- Claim C7 is right about the intent but wrong about the code: the
handler's `handleAnswer` does contain the expired-session notice for
non-command text with no session, but the message router of
`src/index.js` forwards a text message to `handleAnswer` only when a
session already exists, so at the system boundary a non-command message
for an id with no session is dropped silently — no notification, no
session created, no effect at all. -/
theorem claim_C7 :
    onMessage cfg0 [] 0 "hello" 1 (aiOk "S") = ([], []) ∧
    handleAnswer cfg0 [] 0 "hello" 1 (aiOk "S") =
      ([], [Effect.msg 0 sessionExpiredMsg]) := by
  constructor
  · decide
  · decide

/-- Claim C8 (amended): in the current handler revision, every export of
an existing session writes the temp file, attempts the document send,
and removes the file immediately afterwards — identically on send
success and send failure — and returns the session store untouched; in
the earlier two-language revision, however, the exported file is never
deleted and remains on disk after the call. -/
theorem claim_C8 (cfg : Config) (st : Store) (fs : FsState) (id : Nat)
    (s : Session) (ts dateStr timeStr : String)
    (hg : storeGet st id = some s) :
    (∀ sendOk : Bool, saveResults cfg st fs id ts dateStr timeStr sendOk =
       (st,
        fsUnlink (fsWrite fs (exportFilePath id ts)) (exportFilePath id ts),
        [Effect.fileWrite (exportFilePath id ts)
           (renderExport cfg s dateStr timeStr),
         Effect.docSend id (exportFilePath id ts)
           (cfg.resultsCaption s.lang) sendOk,
         Effect.fileDelete (exportFilePath id ts),
         Effect.msg id (cfg.resultsSaved s.lang)])) ∧
    (∀ sendOk : Bool,
       exportFilePath id ts ∉
         (saveResults cfg st fs id ts dateStr timeStr sendOk).2.1) ∧
    (∀ sendOk : Bool,
       (saveResults cfg st fs id ts dateStr timeStr sendOk).1 = st) ∧
    (∀ sendOk : Bool,
       exportFilePath id ts ∈
         (saveResultsLegacy cfg st fs id ts dateStr timeStr sendOk).2.1) := by
  refine ⟨?_, ?_, fun sendOk => saveResults_store_eq .., ?_⟩
  · intro sendOk
    unfold saveResults
    simp [hg]
  · intro sendOk
    unfold saveResults
    simp [hg, fsUnlink, fsWrite, List.mem_filter]
  · intro sendOk
    unfold saveResultsLegacy
    simp [hg, fsWrite]

def c8Session : Session :=
  { lang := "ru", chain := 1, currentIndex := 2,
    answers := [⟨"A?", "a"⟩, ⟨"B?", "b"⟩], summary := some "SUM",
    lastActivity := 0 }

def c8Store : Store := [(0, c8Session)]

/-- Claim C8 as frozen is false for the earlier revision it cites: after
this export call on an existing session, the written file is still on
disk — the artifact outlives the call. -/
theorem claim_C8_counterexample :
    storeGet c8Store 0 = some c8Session ∧
    exportFilePath 0 "ts" ∈
      (saveResultsLegacy cfg0 c8Store [] 0 "ts" "d" "t" true).2.1 := by
  constructor
  · rfl
  · decide

theorem claim_C8_witness :
    storeGet c8Store 0 = some c8Session ∧
    exportFilePath 0 "ts" ∉
      (saveResults cfg0 c8Store [] 0 "ts" "d" "t" false).2.1 ∧
    (saveResults cfg0 c8Store [] 0 "ts" "d" "t" true).1 = c8Store ∧
    exportFilePath 0 "ts" ∈
      (saveResultsLegacy cfg0 c8Store [] 0 "ts" "d" "t" false).2.1 := by
  have hg : storeGet c8Store 0 = some c8Session := rfl
  have h := claim_C8 cfg0 c8Store [] 0 c8Session "ts" "d" "t" hg
  exact ⟨hg, h.2.1 false, h.2.2.1 true, h.2.2.2 false⟩

/-- Claim C9: exporting for an id with no session sends exactly one error
message, makes no document-send call, writes no file, and leaves the
store and the disk untouched. -/
theorem claim_C9 (cfg : Config) (st : Store) (fs : FsState) (id : Nat)
    (ts dateStr timeStr : String) (sendOk : Bool)
    (hg : storeGet st id = none) :
    saveResults cfg st fs id ts dateStr timeStr sendOk =
      (st, fs, [Effect.msg id cfg.noDataToSave]) := by
  unfold saveResults
  simp [hg]

theorem claim_C9_witness :
    storeGet ([] : Store) 7 = none ∧
    saveResults cfg0 [] [] 7 "ts" "d" "t" true =
      ([], [], [Effect.msg 7 cfg0.noDataToSave]) :=
  ⟨rfl, claim_C9 cfg0 [] [] 7 "ts" "d" "t" true rfl⟩

/-! ## Claim C10 -/

/-- An input of raw length 4001 that trims to a single character. -/
def c10Padded : String := String.mk ('a' :: List.replicate 4000 ' ')

theorem c10Padded_length : jsLength c10Padded = 4001 := by
  rw [show jsLength c10Padded = ('a' :: List.replicate 4000 ' ').length
    from rfl]
  rw [List.length_cons, List.length_replicate]

theorem dropWs_spaces (n : Nat) :
    List.dropWhile isJsWs (List.replicate n ' ' ++ ['a']) = ['a'] := by
  induction n with
  | zero => decide
  | succ n ih =>
      rw [List.replicate_succ, List.cons_append, List.dropWhile_cons]
      simp [show isJsWs ' ' = true from by decide, ih]

theorem c10Padded_trim : jsTrim c10Padded = "a" := by
  rw [show jsTrim c10Padded =
    String.mk (jsTrimList ('a' :: List.replicate 4000 ' ')) from rfl]
  rw [jsTrimList, List.dropWhile_cons]
  rw [show isJsWs 'a' = false from by decide]
  simp only [Bool.false_eq_true, if_false]
  rw [List.reverse_cons, List.reverse_replicate, dropWs_spaces]
  rfl

def c10Session : Session :=
  { lang := "ru", chain := 1, currentIndex := 0, answers := [],
    summary := none, lastActivity := 0 }

def c10Store : Store := [(0, c10Session)]

/-- Claim C10: the 4000-character validation is applied to the raw input
before trimming while the stored answer is the trimmed text; a raw input
over the limit only because of surrounding whitespace is rejected even
though its trimmed form is short; every stored answer has length at most
4000; and the empty string is a possible stored answer (trimming does not
reject blank input). -/
theorem claim_C10 (cfg : Config) (st : Store) (id : Nat) (s : Session)
    (text : String) (now : Nat) (ai : AiOutcome)
    (hg : storeGet st id = some s) :
    (jsLength text > MAX_ANSWER_LENGTH →
       (handleAnswer cfg st id text now ai).1 =
         storeSet st id { s with lastActivity := now }) ∧
    (¬ jsLength text > MAX_ANSWER_LENGTH →
       ∃ s', storeGet (handleAnswer cfg st id text now ai).1 id = some s' ∧
         s'.answers = s.answers ++
           [⟨(cfg.questions s.lang s.chain).getD s.currentIndex "",
             jsTrim text⟩] ∧
         s'.currentIndex = s.currentIndex + 1 ∧
         jsLength (jsTrim text) ≤ MAX_ANSWER_LENGTH) ∧
    jsLength (jsTrim text) ≤ jsLength text ∧
    jsLength c10Padded = 4001 ∧ jsTrim c10Padded = "a" ∧ jsTrim "" = "" := by
  refine ⟨?_, ?_, jsTrim_length_le text, c10Padded_length, c10Padded_trim,
    rfl⟩
  · intro hl
    rw [handleAnswer_long hg hl]
  · intro hl
    rw [handleAnswer_accept hg hl]
    have hbound : jsLength (jsTrim text) ≤ MAX_ANSWER_LENGTH := by
      have := jsTrim_length_le text
      omega
    have hself : storeGet
        (storeSet st id (recordAnswer cfg { s with lastActivity := now }
          text)) id =
        some (recordAnswer cfg { s with lastActivity := now } text) :=
      storeGet_storeSet_self ..
    rcases @storeGet_sendNextQuestion_self cfg _ id ai _ hself with
      h | h
    · exact ⟨_, h, by simp [recordAnswer], by simp [recordAnswer], hbound⟩
    · exact ⟨_, h, by simp [recordAnswer], by simp [recordAnswer], hbound⟩

theorem claim_C10_witness :
    storeGet c10Store 0 = some c10Session ∧
    jsLength c10Padded > MAX_ANSWER_LENGTH ∧
    (handleAnswer cfg0 c10Store 0 c10Padded 4 (aiOk "S")).1 =
      storeSet c10Store 0 { c10Session with lastActivity := 4 } := by
  have hg : storeGet c10Store 0 = some c10Session := rfl
  have hl : jsLength c10Padded > MAX_ANSWER_LENGTH := by
    rw [c10Padded_length]; decide
  exact ⟨hg, hl,
    (claim_C10 cfg0 c10Store 0 c10Session c10Padded 4 (aiOk "S") hg).1 hl⟩

end SubjectBot
